import Mathlib

/-!
Verification development for the energy-ingestion-engine repository.

The TypeScript service keeps, per device kind (smart meter / vehicle), an
append-only ledger of readings (cold path), a one-row-per-device current-state
table (hot path) and a device registry.  We embed the persistent state as
association lists keyed by the external device id and translate each service
method of `IngestionService` and `AnalyticsService` into a pure state-passing
function.

Modelling conventions:
* JS `number` values (measurements, means, ratios) are embedded as `ℚ`,
  idealizing IEEE-754 arithmetic on them.
* Timestamps are the parsed epoch-millisecond instants (`new Date(s).getTime()`),
  embedded as `ℤ`; `new Date(a) > new Date(b)` becomes `a > b`.
* The `Date.now()` clock of an analytics call is passed explicitly as `now`.
* Ledger rows carry the telemetry fields of the submitted DTO.  The extra
  storage columns `id` (a fresh uuid) and `receivedAt` (system clock, used for
  audit only) influence no computation in the source and are not modelled;
  ledger order is insertion order, which is the receipt order.
* Prisma calls become association-list operations: `findUnique` is `lookupA`,
  `upsert` is `upsertA` / `registerA`, `update` on a missing record rejects.
-/

/-- Association-list lookup, the embedding of a unique-key `findUnique`. -/
def lookupA {σ : Type} (k : String) : List (String × σ) → Option σ
  | [] => none
  | p :: rest => if p.1 = k then some p.2 else lookupA k rest

/-- Association-list upsert: replace the row in place when the key exists,
append a fresh row otherwise (the embedding of a unique-key `upsert` whose
`update` clause overwrites every payload column). -/
def upsertA {σ : Type} (k : String) (v : σ) : List (String × σ) → List (String × σ)
  | [] => [(k, v)]
  | p :: rest => if p.1 = k then (k, v) :: rest else p :: upsertA k v rest

/-- Create-if-absent registration: the embedding of an `upsert` whose `update`
clause is empty (`update: \x7b\x7d`), so an existing row is left untouched. -/
def registerA {σ : Type} (k : String) (v : σ) (l : List (String × σ)) : List (String × σ) :=
  match lookupA k l with
  | some _ => l
  | none => l ++ [(k, v)]

/-- Replace the value stored under `k`, keeping the entry position: the
embedding of `Map.set` on a key that is already present. -/
def replaceVal {τ : Type} (k : String) (v : τ) : List (String × τ) → List (String × τ)
  | [] => []
  | p :: rest => (if p.1 = k then (k, v) else p) :: replaceVal k v rest

/-- One step of the batch reduction loop building `latestByMeter` /
`latestByVehicle`: keep the stored reading unless the incoming one has a
strictly larger observation timestamp
(`new Date(reading.timestamp) > new Date(existing.timestamp)`). -/
def latestInsert {τ : Type} (key : τ → String) (ts : τ → ℤ)
    (m : List (String × τ)) (r : τ) : List (String × τ) :=
  match lookupA (key r) m with
  | none => m ++ [(key r, r)]
  | some e => if ts e < ts r then replaceVal (key r) r m else m

/-- The `latestByMeter` / `latestByVehicle` map after the reduction loop over
the whole batch, as an insertion-ordered association list (JS `Map`). -/
def latestMap {τ : Type} (key : τ → String) (ts : τ → ℤ) (readings : List τ) :
    List (String × τ) :=
  readings.foldl (latestInsert key ts) []

/-- The hot-path loop of the batch endpoints: one `upsert` per entry of the
reduced map. -/
def applyLatest {τ σ : Type} (stateOf : τ → σ) (entries : List (String × τ))
    (table : List (String × σ)) : List (String × σ) :=
  entries.foldl (fun tb e => upsertA e.1 (stateOf e.2) tb) table

/-- The batch comparator folded over one device's readings: the running winner
is replaced only by a strictly larger timestamp. -/
def pickLatest {τ : Type} (ts : τ → ℤ) (acc : Option τ) (r : τ) : Option τ :=
  match acc with
  | none => some r
  | some e => if ts e < ts r then some r else some e

/-- The winning reading of a list under the batch comparator. -/
def winner {τ : Type} (ts : τ → ℤ) (l : List τ) : Option τ :=
  l.foldl (pickLatest ts) none

/-- Helper for `dedupFirst`, carrying the set of ids already seen. -/
def dedupFirstAux (seen : List String) : List String → List String
  | [] => []
  | x :: rest => if x ∈ seen then dedupFirstAux seen rest else x :: dedupFirstAux (x :: seen) rest

/-- First-occurrence deduplication: the embedding of
`[...new Set(readings.map(r => r.deviceId))]`. -/
def dedupFirst (l : List String) : List String := dedupFirstAux [] l

/-- Registry row of a smart meter (`model Meter`; static attributes beyond the
name are not consulted by the service and are not modelled). -/
structure Meter where
  name : String
deriving DecidableEq

/-- Registry row of a vehicle (`model Vehicle`) with its nullable meter
reference. -/
structure Vehicle where
  name : String
  meterId : Option String
deriving DecidableEq

/-- A meter telemetry submission (`MeterTelemetryDto`), which is also the
payload of a cold-storage `meter_readings` row. -/
structure MeterTelemetryDto where
  meterId : String
  kwhConsumedAc : ℚ
  voltage : ℚ
  timestamp : ℤ
deriving DecidableEq

/-- A vehicle telemetry submission (`VehicleTelemetryDto`), which is also the
payload of a cold-storage `vehicle_readings` row. -/
structure VehicleTelemetryDto where
  vehicleId : String
  soc : ℚ
  kwhDeliveredDc : ℚ
  batteryTemp : ℚ
  timestamp : ℤ
deriving DecidableEq

/-- Hot-storage row of `meter_current_state`. -/
structure MeterCurrentState where
  kwhConsumedAc : ℚ
  voltage : ℚ
  lastTimestamp : ℤ
deriving DecidableEq

/-- Hot-storage row of `vehicle_current_state`. -/
structure VehicleCurrentState where
  soc : ℚ
  kwhDeliveredDc : ℚ
  batteryTemp : ℚ
  lastTimestamp : ℤ
deriving DecidableEq

/-- The persistent state of the service: registries, append-only ledgers and
the two current-state projections. -/
structure Db where
  meters : List (String × Meter)
  vehicles : List (String × Vehicle)
  meterReadings : List MeterTelemetryDto
  vehicleReadings : List VehicleTelemetryDto
  meterCurrentState : List (String × MeterCurrentState)
  vehicleCurrentState : List (String × VehicleCurrentState)
deriving DecidableEq

/-- A database with no devices, readings or state rows. -/
def emptyDb : Db := ⟨[], [], [], [], [], []⟩

/-- The meter registry row created on auto-registration. -/
def mkMeter (id : String) : Meter := ⟨"Meter " ++ id⟩

/-- The vehicle registry row created on auto-registration (`meterId` starts
null). -/
def mkVehicle (id : String) : Vehicle := ⟨"Vehicle " ++ id, none⟩

/-- The current-state row written for a meter reading. -/
def dtoMState (r : MeterTelemetryDto) : MeterCurrentState :=
  ⟨r.kwhConsumedAc, r.voltage, r.timestamp⟩

/-- The current-state row written for a vehicle reading. -/
def dtoVState (r : VehicleTelemetryDto) : VehicleCurrentState :=
  ⟨r.soc, r.kwhDeliveredDc, r.batteryTemp, r.timestamp⟩

/-- Result of `ingestMeterTelemetry` (the fresh reading uuid, which no claim
inspects, is not modelled). -/
structure IngestMeterResult where
  success : Bool
  meterId : String
deriving DecidableEq

/-- Result of `ingestVehicleTelemetry`. -/
structure IngestVehicleResult where
  success : Bool
  vehicleId : String
deriving DecidableEq

/-- Result of `batchIngestMeterTelemetry`. -/
structure BatchMeterResult where
  success : Bool
  count : ℕ
  meterIds : List String
deriving DecidableEq

/-- Result of `batchIngestVehicleTelemetry`. -/
structure BatchVehicleResult where
  success : Bool
  count : ℕ
  vehicleIds : List String
deriving DecidableEq

/-- `IngestionService.ingestMeterTelemetry`: inside one transaction,
auto-register the meter, append the reading to cold storage, and upsert the
current-state row with the incoming values unconditionally. -/
def ingestMeterTelemetry (dto : MeterTelemetryDto) (db : Db) : Db × IngestMeterResult :=
  ({ db with
      meters := registerA dto.meterId (mkMeter dto.meterId) db.meters,
      meterReadings := db.meterReadings ++ [dto],
      meterCurrentState := upsertA dto.meterId (dtoMState dto) db.meterCurrentState },
   ⟨true, dto.meterId⟩)

/-- `IngestionService.ingestVehicleTelemetry`: inside one transaction,
auto-register the vehicle, append the reading to cold storage, and upsert the
current-state row with the incoming values unconditionally. -/
def ingestVehicleTelemetry (dto : VehicleTelemetryDto) (db : Db) : Db × IngestVehicleResult :=
  ({ db with
      vehicles := registerA dto.vehicleId (mkVehicle dto.vehicleId) db.vehicles,
      vehicleReadings := db.vehicleReadings ++ [dto],
      vehicleCurrentState := upsertA dto.vehicleId (dtoVState dto) db.vehicleCurrentState },
   ⟨true, dto.vehicleId⟩)

/-- `IngestionService.batchIngestMeterTelemetry`: register the deduplicated
meter ids, bulk-append all readings in input order, reduce the batch to the
latest reading per meter, then upsert once per entry of the reduced map. -/
def batchIngestMeterTelemetry (readings : List MeterTelemetryDto) (db : Db) :
    Db × BatchMeterResult :=
  let meterIds := dedupFirst (readings.map (fun r => r.meterId))
  ({ db with
      meters := meterIds.foldl (fun t id => registerA id (mkMeter id) t) db.meters,
      meterReadings := db.meterReadings ++ readings,
      meterCurrentState :=
        applyLatest dtoMState
          (latestMap (fun r => r.meterId) (fun r => r.timestamp) readings)
          db.meterCurrentState },
   ⟨true, readings.length, meterIds⟩)

/-- `IngestionService.batchIngestVehicleTelemetry`: register the deduplicated
vehicle ids, bulk-append all readings in input order, reduce the batch to the
latest reading per vehicle, then upsert once per entry of the reduced map. -/
def batchIngestVehicleTelemetry (readings : List VehicleTelemetryDto) (db : Db) :
    Db × BatchVehicleResult :=
  let vehicleIds := dedupFirst (readings.map (fun r => r.vehicleId))
  ({ db with
      vehicles := vehicleIds.foldl (fun t id => registerA id (mkVehicle id) t) db.vehicles,
      vehicleReadings := db.vehicleReadings ++ readings,
      vehicleCurrentState :=
        applyLatest dtoVState
          (latestMap (fun r => r.vehicleId) (fun r => r.timestamp) readings)
          db.vehicleCurrentState },
   ⟨true, readings.length, vehicleIds⟩)

/-- Errors surfaced by the service: the embedding of a rejected lookup, either
a `NotFoundException` thrown by the analytics service or Prisma's
record-to-update-not-found rejection of `vehicle.update`. -/
inductive ApiError
  | notFound
deriving DecidableEq

/-- `IngestionService.associateVehicleWithMeter`: `prisma.vehicle.update` sets
the meter reference of an existing vehicle and rejects when the vehicle id is
unknown; the meter registry is never consulted. -/
def associateVehicleWithMeter (vehicleId meterId : String) (db : Db) :
    Except ApiError (Db × Bool) :=
  match lookupA vehicleId db.vehicles with
  | none => .error .notFound
  | some v =>
      .ok ({ db with vehicles := upsertA vehicleId { v with meterId := some meterId } db.vehicles },
           true)

/-- One call into the ingestion service, for reasoning about sequences of
writes. -/
inductive IngestOp
  | meterSingle (dto : MeterTelemetryDto)
  | meterBatch (readings : List MeterTelemetryDto)
  | vehicleSingle (dto : VehicleTelemetryDto)
  | vehicleBatch (readings : List VehicleTelemetryDto)

/-- The state transition of one ingestion call. -/
def applyOp (db : Db) : IngestOp → Db
  | .meterSingle dto => (ingestMeterTelemetry dto db).1
  | .meterBatch readings => (batchIngestMeterTelemetry readings db).1
  | .vehicleSingle dto => (ingestVehicleTelemetry dto db).1
  | .vehicleBatch readings => (batchIngestVehicleTelemetry readings db).1

/-- The state after a sequence of ingestion calls. -/
def runOps (db : Db) (ops : List IngestOp) : Db := ops.foldl applyOp db

/-- The readings one ingestion call accepts for vehicle `d`, in input order. -/
def vehicleSubOf (d : String) : IngestOp → List VehicleTelemetryDto
  | .vehicleSingle r => if r.vehicleId = d then [r] else []
  | .vehicleBatch rs => rs.filter (fun r => decide (r.vehicleId = d))
  | _ => []

/-- All readings a sequence of ingestion calls accepts for vehicle `d`, in
arrival order. -/
def vehicleReadingsFor (d : String) : List IngestOp → List VehicleTelemetryDto
  | [] => []
  | op :: rest => vehicleSubOf d op ++ vehicleReadingsFor d rest

/-- The readings one ingestion call accepts for meter `d`, in input order. -/
def meterSubOf (d : String) : IngestOp → List MeterTelemetryDto
  | .meterSingle r => if r.meterId = d then [r] else []
  | .meterBatch rs => rs.filter (fun r => decide (r.meterId = d))
  | _ => []

/-- All readings a sequence of ingestion calls accepts for meter `d`, in
arrival order. -/
def meterReadingsFor (d : String) : List IngestOp → List MeterTelemetryDto
  | [] => []
  | op :: rest => meterSubOf d op ++ meterReadingsFor d rest

/-- The domain bounds `class-validator` enforces on a meter submission. -/
def validMeterDto (d : MeterTelemetryDto) : Prop :=
  0 ≤ d.kwhConsumedAc ∧ 0 ≤ d.voltage ∧ d.voltage ≤ 500

/-- The domain bounds `class-validator` enforces on a vehicle submission. -/
def validVehicleDto (d : VehicleTelemetryDto) : Prop :=
  0 ≤ d.soc ∧ d.soc ≤ 100 ∧ 0 ≤ d.kwhDeliveredDc ∧
    -50 ≤ d.batteryTemp ∧ d.batteryTemp ≤ 100

instance (d : MeterTelemetryDto) : Decidable (validMeterDto d) := by
  unfold validMeterDto; infer_instance

instance (d : VehicleTelemetryDto) : Decidable (validVehicleDto d) := by
  unfold validVehicleDto; infer_instance

/-- JS `Math.round(x * 100) / 100`, the two-decimal rounding applied to every
reported numeric output (`Math.round` rounds half toward positive infinity,
so it is the floor of `x + 1/2`). -/
def round2 (q : ℚ) : ℚ := ((⌊q * 100 + 1 / 2⌋ : ℤ) : ℚ) / 100

/-- The recovery loop of the cumulative-delta algorithm: the sum of the
strictly positive consecutive deltas of a value series
(`if (delta > 0) total += delta`). -/
def sumPosDeltas : List ℚ → ℚ
  | [] => 0
  | [_] => 0
  | a :: b :: rest => (if 0 < b - a then b - a else 0) + sumPosDeltas (b :: rest)

/-- The cumulative-delta algorithm of `getPerformanceSummary`, applied to a
time-ordered series of counter values: last minus first, recomputed as the sum
of positive deltas when that difference is negative (counter reset); `0` for an
empty series. -/
def cumulativeTotal : List ℚ → ℚ
  | [] => 0
  | v :: rest =>
      let tot := List.getLastD rest v - v
      if tot < 0 then sumPosDeltas (v :: rest) else tot

/-- Modelled from the spec (section 4.4): the reset-case total written as
`Σ max(0, r[i].value − r[i-1].value)` over all consecutive pairs, used to
compare the code's recovery loop against the specified formula. -/
def specConsecMaxSum (l : List ℚ) : ℚ :=
  ((l.zip l.tail).map (fun p => max 0 (p.2 - p.1))).sum

/-- The efficiency thresholds and the classification chain of
`getPerformanceSummary`: default `HEALTHY`, downgraded only for a positive
ratio below the warning / critical thresholds. -/
inductive EffStatus
  | HEALTHY
  | WARNING
  | CRITICAL
deriving DecidableEq

/-- The status classification of `getPerformanceSummary`
(`EFFICIENCY_THRESHOLD_WARNING = 85`, `EFFICIENCY_THRESHOLD_CRITICAL = 75`). -/
def efficiencyStatusOf (ratio : ℚ) : EffStatus :=
  if 0 < ratio then
    if ratio < 75 then .CRITICAL
    else if ratio < 85 then .WARNING
    else .HEALTHY
  else .HEALTHY

/-- The vehicle readings of the 24-hour window, filtered by device id and the
inclusive time bounds and ordered ascending by observation timestamp (the
`orderBy: timestamp asc` of the indexed query; the order among equal
timestamps is not fixed by the database and is realized here by a stable
insertion sort). -/
def vehicleWindow (db : Db) (vehicleId : String) (periodStart periodEnd : ℤ) :
    List VehicleTelemetryDto :=
  List.insertionSort (fun a b => a.timestamp ≤ b.timestamp)
    (db.vehicleReadings.filter
      (fun r => decide (r.vehicleId = vehicleId) &&
        decide (periodStart ≤ r.timestamp) && decide (r.timestamp ≤ periodEnd)))

/-- The meter readings of the 24-hour window, ordered ascending by observation
timestamp. -/
def meterWindow (db : Db) (meterId : String) (periodStart periodEnd : ℤ) :
    List MeterTelemetryDto :=
  List.insertionSort (fun a b => a.timestamp ≤ b.timestamp)
    (db.meterReadings.filter
      (fun r => decide (r.meterId = meterId) &&
        decide (periodStart ≤ r.timestamp) && decide (r.timestamp ≤ periodEnd)))

/-- `totalDcDelivered` before rounding: the cumulative-delta total of the
windowed DC-delivered series. -/
def rawDc (db : Db) (vehicleId : String) (periodStart periodEnd : ℤ) : ℚ :=
  cumulativeTotal ((vehicleWindow db vehicleId periodStart periodEnd).map
    (fun r => r.kwhDeliveredDc))

/-- The average battery temperature before rounding: arithmetic mean over the
windowed vehicle series, `0` when the series is empty. -/
def rawAvgTemp (db : Db) (vehicleId : String) (periodStart periodEnd : ℤ) : ℚ :=
  let l := vehicleWindow db vehicleId periodStart periodEnd
  if 0 < l.length then ((l.map (fun r => r.batteryTemp)).sum) / l.length else 0

/-- `totalAcConsumed` before rounding: the cumulative-delta total of the
windowed AC-consumed series of the associated meter, `0` when no meter is
associated (or the vehicle is unknown, in which case the endpoint rejects
before using it). -/
def rawAc (db : Db) (vehicleId : String) (periodStart periodEnd : ℤ) : ℚ :=
  match lookupA vehicleId db.vehicles with
  | none => 0
  | some v =>
      match v.meterId with
      | none => 0
      | some m => cumulativeTotal ((meterWindow db m periodStart periodEnd).map
          (fun r => r.kwhConsumedAc))

/-- The efficiency ratio before rounding:
`(totalDcDelivered / totalAcConsumed) * 100` when `totalAcConsumed > 0`, else
`0`. -/
def rawRatio (db : Db) (vehicleId : String) (periodStart periodEnd : ℤ) : ℚ :=
  if 0 < rawAc db vehicleId periodStart periodEnd then
    rawDc db vehicleId periodStart periodEnd / rawAc db vehicleId periodStart periodEnd * 100
  else 0

/-- The response of `getPerformanceSummary`. -/
structure PerformanceSummary where
  vehicleId : String
  meterId : Option String
  periodStart : ℤ
  periodEnd : ℤ
  totalAcConsumed : ℚ
  totalDcDelivered : ℚ
  efficiencyRatio : ℚ
  avgBatteryTemp : ℚ
  vehicleReadingCount : ℕ
  meterReadingCount : ℕ
  efficiencyStatus : EffStatus
deriving DecidableEq

/-- `AnalyticsService.getPerformanceSummary` over the window
`[now - 24h, now]` (24h = 86400000 ms): reject unknown vehicles, compute both
cumulative-delta totals, the mean battery temperature, the efficiency ratio
and its classification, and round every reported numeric output to two
decimals. -/
def getPerformanceSummary (db : Db) (vehicleId : String) (now : ℤ) :
    Except ApiError PerformanceSummary :=
  let periodEnd := now
  let periodStart := now - 86400000
  match lookupA vehicleId db.vehicles with
  | none => .error .notFound
  | some v =>
      .ok
        { vehicleId := vehicleId
          meterId := v.meterId
          periodStart := periodStart
          periodEnd := periodEnd
          totalAcConsumed := round2 (rawAc db vehicleId periodStart periodEnd)
          totalDcDelivered := round2 (rawDc db vehicleId periodStart periodEnd)
          efficiencyRatio := round2 (rawRatio db vehicleId periodStart periodEnd)
          avgBatteryTemp := round2 (rawAvgTemp db vehicleId periodStart periodEnd)
          vehicleReadingCount := (vehicleWindow db vehicleId periodStart periodEnd).length
          meterReadingCount :=
            match v.meterId with
            | none => 0
            | some m => (meterWindow db m periodStart periodEnd).length
          efficiencyStatus := efficiencyStatusOf (rawRatio db vehicleId periodStart periodEnd) }

/-- The response of `getCurrentState`. -/
structure CurrentStateDto where
  vehicleId : String
  currentSoc : ℚ
  currentBatteryTemp : ℚ
  lastKwhDeliveredDc : ℚ
  lastUpdated : ℤ
deriving DecidableEq

/-- `AnalyticsService.getCurrentState`: a single unique-key lookup of the hot
vehicle state, rejected with not-found when no row exists. -/
def getCurrentState (db : Db) (vehicleId : String) : Except ApiError CurrentStateDto :=
  match lookupA vehicleId db.vehicleCurrentState with
  | none => .error .notFound
  | some s => .ok ⟨vehicleId, s.soc, s.batteryTemp, s.kwhDeliveredDc, s.lastTimestamp⟩

/-- The active vehicle states of `getFleetStats`: current-state rows whose
`lastTimestamp` is at least `now` minus five minutes (300000 ms). -/
def activeVehicleStates (db : Db) (now : ℤ) : List (String × VehicleCurrentState) :=
  db.vehicleCurrentState.filter (fun p => decide (now - 300000 ≤ p.2.lastTimestamp))

/-- The active meter states of `getFleetStats`. -/
def activeMeterStates (db : Db) (now : ℤ) : List (String × MeterCurrentState) :=
  db.meterCurrentState.filter (fun p => decide (now - 300000 ≤ p.2.lastTimestamp))

/-- The response of `getFleetStats`. -/
structure FleetStats where
  totalVehicles : ℕ
  totalMeters : ℕ
  activeVehicles : ℕ
  activeMeters : ℕ
  avgFleetSoc : ℚ
  avgFleetBatteryTemp : ℚ
deriving DecidableEq

/-- `AnalyticsService.getFleetStats` at clock instant `now`: device counts,
active counts against the five-minute threshold, and the two fleet averages
over active vehicles only (`0` when none is active), rounded to two
decimals. -/
def getFleetStats (db : Db) (now : ℤ) : FleetStats :=
  let av := activeVehicleStates db now
  let am := activeMeterStates db now
  { totalVehicles := db.vehicles.length
    totalMeters := db.meters.length
    activeVehicles := av.length
    activeMeters := am.length
    avgFleetSoc :=
      round2 (if 0 < av.length then ((av.map (fun p => p.2.soc)).sum) / av.length else 0)
    avgFleetBatteryTemp :=
      round2 (if 0 < av.length then ((av.map (fun p => p.2.batteryTemp)).sum) / av.length else 0) }

theorem lookupA_append {σ : Type} (k : String) (l1 l2 : List (String × σ)) :
    lookupA k (l1 ++ l2) =
      match lookupA k l1 with
      | some v => some v
      | none => lookupA k l2 := by
  induction l1 with
  | nil => rfl
  | cons p rest ih =>
      simp only [List.cons_append, lookupA]
      split
      · rfl
      · exact ih

theorem lookupA_upsertA_self {σ : Type} (k : String) (v : σ) (l : List (String × σ)) :
    lookupA k (upsertA k v l) = some v := by
  induction l with
  | nil => simp [upsertA, lookupA]
  | cons p rest ih =>
      by_cases h : p.1 = k
      · simp [upsertA, h, lookupA]
      · simp [upsertA, h, lookupA, ih]

theorem lookupA_upsertA_ne {σ : Type} {k k' : String} (h : k' ≠ k) (v : σ)
    (l : List (String × σ)) : lookupA k' (upsertA k v l) = lookupA k' l := by
  have hkk : k ≠ k' := Ne.symm h
  induction l with
  | nil => simp [upsertA, lookupA, hkk]
  | cons p rest ih =>
      by_cases hp : p.1 = k
      · simp [upsertA, hp, lookupA, hkk]
      · simp only [upsertA, hp, if_false, lookupA]
        split
        · rfl
        · exact ih

theorem lookupA_replaceVal_ne {τ : Type} {k k' : String} (h : k' ≠ k) (v : τ)
    (l : List (String × τ)) : lookupA k' (replaceVal k v l) = lookupA k' l := by
  have hkk : k ≠ k' := Ne.symm h
  induction l with
  | nil => rfl
  | cons p rest ih =>
      by_cases hp : p.1 = k
      · simp [replaceVal, hp, lookupA, hkk, ih]
      · simp only [replaceVal, hp, if_false, lookupA]
        split
        · rfl
        · exact ih

theorem lookupA_replaceVal_self {τ : Type} {k : String} {l : List (String × τ)}
    (h : (lookupA k l).isSome) (v : τ) : lookupA k (replaceVal k v l) = some v := by
  induction l with
  | nil => simp [lookupA] at h
  | cons p rest ih =>
      by_cases hp : p.1 = k
      · simp [replaceVal, hp, lookupA]
      · simp only [lookupA, hp, if_false] at h
        simp only [replaceVal, hp, if_false, lookupA]
        exact ih h

theorem lookupA_eq_none_iff {σ : Type} (k : String) (l : List (String × σ)) :
    lookupA k l = none ↔ k ∉ l.map Prod.fst := by
  induction l with
  | nil => simp [lookupA]
  | cons p rest ih =>
      by_cases hp : p.1 = k
      · simp [lookupA, hp]
      · simp [lookupA, hp, ih, Ne.symm hp]

theorem keys_replaceVal {τ : Type} (k : String) (v : τ) (l : List (String × τ)) :
    (replaceVal k v l).map Prod.fst = l.map Prod.fst := by
  induction l with
  | nil => rfl
  | cons p rest ih =>
      by_cases hp : p.1 = k
      · simp [replaceVal, hp, ih]
      · simp [replaceVal, hp, ih]

theorem foldl_pickLatest_isSome {τ : Type} (ts : τ → ℤ) :
    ∀ (l : List τ) (e : τ), ∃ w, l.foldl (pickLatest ts) (some e) = some w := by
  intro l
  induction l with
  | nil => exact fun e => ⟨e, rfl⟩
  | cons r rest ih =>
      intro e
      by_cases h : ts e < ts r
      · simpa [pickLatest, h] using ih r
      · simpa [pickLatest, h] using ih e

theorem foldl_pickLatest_char {τ : Type} (ts : τ → ℤ) :
    ∀ (l : List τ) (e w : τ), l.foldl (pickLatest ts) (some e) = some w →
      (w = e ∧ ∀ r ∈ l, ts r ≤ ts e) ∨
      (w ∈ l ∧ ts e < ts w ∧ (∀ r ∈ l, ts r ≤ ts w) ∧
        l.find? (fun r => decide (ts w ≤ ts r)) = some w) := by
  intro l
  induction l with
  | nil =>
      intro e w hw
      simp only [List.foldl_nil, Option.some.injEq] at hw
      exact Or.inl ⟨hw.symm, by simp⟩
  | cons r rest ih =>
      intro e w hw
      by_cases h : ts e < ts r
      · simp only [List.foldl_cons, pickLatest, h, if_true] at hw
        rcases ih r w hw with ⟨hweq, hall⟩ | ⟨hmem, hlt, hall, hfind⟩
        · subst hweq
          refine Or.inr ⟨List.mem_cons_self w rest, h, ?_, ?_⟩
          · intro x hx
            rcases List.mem_cons.mp hx with rfl | hx
            · exact le_refl _
            · exact hall x hx
          · simp [List.find?]
        · refine Or.inr ⟨List.mem_cons_of_mem r hmem, h.trans hlt, ?_, ?_⟩
          · intro x hx
            rcases List.mem_cons.mp hx with rfl | hx
            · exact hlt.le
            · exact hall x hx
          · have : ¬ ts w ≤ ts r := not_le.mpr hlt
            simp [List.find?, this, hfind]
      · simp only [List.foldl_cons, pickLatest, h, if_false] at hw
        rcases ih e w hw with ⟨hweq, hall⟩ | ⟨hmem, hlt, hall, hfind⟩
        · subst hweq
          refine Or.inl ⟨rfl, ?_⟩
          intro x hx
          rcases List.mem_cons.mp hx with rfl | hx
          · exact not_lt.mp h
          · exact hall x hx
        · refine Or.inr ⟨List.mem_cons_of_mem r hmem, hlt, ?_, ?_⟩
          · intro x hx
            rcases List.mem_cons.mp hx with rfl | hx
            · exact (not_lt.mp h).trans hlt.le
            · exact hall x hx
          · have : ¬ ts w ≤ ts r := not_le.mpr ((not_lt.mp h).trans_lt hlt)
            simp [List.find?, this, hfind]

theorem winner_spec {τ : Type} (ts : τ → ℤ) {l : List τ} {w : τ}
    (h : winner ts l = some w) :
    w ∈ l ∧ (∀ r ∈ l, ts r ≤ ts w) ∧
      l.find? (fun r => decide (ts w ≤ ts r)) = some w := by
  match l with
  | [] => simp [winner] at h
  | r :: rest =>
      have h' : rest.foldl (pickLatest ts) (some r) = some w := by
        simpa [winner, pickLatest] using h
      rcases foldl_pickLatest_char ts rest r w h' with ⟨hweq, hall⟩ | ⟨hmem, hlt, hall, hfind⟩
      · subst hweq
        refine ⟨List.mem_cons_self w rest, ?_, ?_⟩
        · intro x hx
          rcases List.mem_cons.mp hx with rfl | hx
          · exact le_refl _
          · exact hall x hx
        · simp [List.find?]
      · refine ⟨List.mem_cons_of_mem r hmem, ?_, ?_⟩
        · intro x hx
          rcases List.mem_cons.mp hx with rfl | hx
          · exact hlt.le
          · exact hall x hx
        · have : ¬ ts w ≤ ts r := not_le.mpr hlt
          simp [List.find?, this, hfind]

theorem winner_isSome {τ : Type} (ts : τ → ℤ) {l : List τ} (h : l ≠ []) :
    ∃ w, winner ts l = some w := by
  match l with
  | [] => exact absurd rfl h
  | r :: rest =>
      obtain ⟨w, hw⟩ := foldl_pickLatest_isSome ts rest r
      exact ⟨w, by simpa [winner, pickLatest] using hw⟩

theorem pairwise_ts_eq {τ : Type} (ts : τ → ℤ) {l : List τ} {a b : τ}
    (hp : l.Pairwise (fun x y => ts x ≠ ts y)) (ha : a ∈ l) (hb : b ∈ l)
    (hts : ts a = ts b) : a = b := by
  by_contra hne
  have hsymm : Symmetric (fun x y : τ => ts x ≠ ts y) := by
    intro x y hxy e
    exact hxy e.symm
  exact List.Pairwise.forall hsymm hp ha hb hne hts

theorem winner_perm {τ : Type} (ts : τ → ℤ) {l l₂ : List τ}
    (hp : l.Pairwise (fun x y => ts x ≠ ts y)) (hperm : l.Perm l₂) :
    winner ts l = winner ts l₂ := by
  cases l with
  | nil =>
      have h2 : l₂ = [] := hperm.symm.eq_nil
      rw [h2]
  | cons a l1 =>
      obtain ⟨w, hw⟩ := winner_isSome ts (l := a :: l1) (List.cons_ne_nil a l1)
      have hl2 : l₂ ≠ [] := by
        intro h2
        rw [h2] at hperm
        exact List.cons_ne_nil a l1 hperm.eq_nil
      obtain ⟨w₂, hw₂⟩ := winner_isSome ts hl2
      obtain ⟨hm1, hmax1, hf1⟩ := winner_spec ts hw
      obtain ⟨hm2, hmax2, hf2⟩ := winner_spec ts hw₂
      have hm2' : w₂ ∈ a :: l1 := hperm.mem_iff.mpr hm2
      have hm1' : w ∈ l₂ := hperm.mem_iff.mp hm1
      have hts : ts w = ts w₂ := le_antisymm (hmax2 w hm1') (hmax1 w₂ hm2')
      have hww : w = w₂ := pairwise_ts_eq ts hp hm1 hm2' hts
      rw [hw, hw₂, hww]

theorem foldl_latestInsert_lookup {τ : Type} (key : τ → String) (ts : τ → ℤ) (d : String) :
    ∀ (rs : List τ) (m : List (String × τ)),
      lookupA d (rs.foldl (latestInsert key ts) m) =
        (rs.filter (fun r => decide (key r = d))).foldl (pickLatest ts) (lookupA d m) := by
  intro rs
  induction rs with
  | nil => intro m; rfl
  | cons r rest ih =>
      intro m
      by_cases hk : key r = d
      · have hstep : lookupA d (latestInsert key ts m r) = pickLatest ts (lookupA d m) r := by
          unfold latestInsert
          rcases hm : lookupA (key r) m with _ | e
          · rw [hk] at hm
            show lookupA d (m ++ [(key r, r)]) = pickLatest ts (lookupA d m) r
            rw [lookupA_append, hm]
            simp [lookupA, hk, pickLatest]
          · rw [hk] at hm
            show lookupA d (if ts e < ts r then replaceVal (key r) r m else m) =
              pickLatest ts (lookupA d m) r
            by_cases hts : ts e < ts r
            · rw [if_pos hts, hk,
                lookupA_replaceVal_self (show (lookupA d m).isSome by rw [hm]; rfl) r, hm]
              simp [pickLatest, hts]
            · rw [if_neg hts, hm]
              simp [pickLatest, hts]
        have hfilter : (r :: rest).filter (fun x => decide (key x = d)) =
            r :: rest.filter (fun x => decide (key x = d)) := by
          simp [List.filter_cons, hk]
        rw [List.foldl_cons, ih (latestInsert key ts m r), hstep, hfilter, List.foldl_cons]
      · have hstep : lookupA d (latestInsert key ts m r) = lookupA d m := by
          unfold latestInsert
          rcases hm : lookupA (key r) m with _ | e
          · show lookupA d (m ++ [(key r, r)]) = lookupA d m
            rw [lookupA_append]
            rcases hd2 : lookupA d m with _ | v
            · simp [lookupA, hk]
            · rfl
          · show lookupA d (if ts e < ts r then replaceVal (key r) r m else m) = lookupA d m
            by_cases hts : ts e < ts r
            · rw [if_pos hts]
              exact lookupA_replaceVal_ne (fun e2 => hk e2.symm) r m
            · rw [if_neg hts]
        have hfilter : (r :: rest).filter (fun x => decide (key x = d)) =
            rest.filter (fun x => decide (key x = d)) := by
          simp [List.filter_cons, hk]
        rw [List.foldl_cons, ih (latestInsert key ts m r), hstep, hfilter]

theorem latestMap_lookup {τ : Type} (key : τ → String) (ts : τ → ℤ) (d : String)
    (rs : List τ) :
    lookupA d (latestMap key ts rs) =
      winner ts (rs.filter (fun r => decide (key r = d))) := by
  unfold latestMap winner
  rw [foldl_latestInsert_lookup key ts d rs []]
  rfl

theorem nodupKeys_latestInsert {τ : Type} (key : τ → String) (ts : τ → ℤ)
    {m : List (String × τ)} (h : (m.map Prod.fst).Nodup) (r : τ) :
    ((latestInsert key ts m r).map Prod.fst).Nodup := by
  unfold latestInsert
  rcases hm : lookupA (key r) m with _ | e
  · show (((m ++ [(key r, r)]).map Prod.fst)).Nodup
    have hnotin : key r ∉ m.map Prod.fst := (lookupA_eq_none_iff _ _).mp hm
    simp [List.nodup_append, h, hnotin]
  · show (((if ts e < ts r then replaceVal (key r) r m else m).map Prod.fst)).Nodup
    by_cases hts : ts e < ts r
    · rw [if_pos hts, keys_replaceVal]
      exact h
    · rw [if_neg hts]
      exact h

theorem nodupKeys_latestMap {τ : Type} (key : τ → String) (ts : τ → ℤ) (rs : List τ) :
    (((latestMap key ts rs).map Prod.fst)).Nodup := by
  unfold latestMap
  suffices h : ∀ (rs : List τ) (m : List (String × τ)), (m.map Prod.fst).Nodup →
      (((rs.foldl (latestInsert key ts) m).map Prod.fst)).Nodup by
    exact h rs [] (by simp)
  intro rs
  induction rs with
  | nil => exact fun m hm => hm
  | cons r rest ih =>
      intro m hm
      exact ih (latestInsert key ts m r) (nodupKeys_latestInsert key ts hm r)

theorem applyLatest_lookup {τ σ : Type} (stateOf : τ → σ) :
    ∀ (entries : List (String × τ)) (t : List (String × σ)) (d : String),
      ((entries.map Prod.fst).Nodup) →
      lookupA d (applyLatest stateOf entries t) =
        match lookupA d entries with
        | some r => some (stateOf r)
        | none => lookupA d t := by
  intro entries
  induction entries with
  | nil => intro t d _; rfl
  | cons p rest ih =>
      intro t d hnd
      have hmap : (List.map Prod.fst (p :: rest)) = p.1 :: rest.map Prod.fst := rfl
      rw [hmap, List.nodup_cons] at hnd
      obtain ⟨hout, hnd'⟩ := hnd
      have hstep := ih (upsertA p.1 (stateOf p.2) t) d hnd'
      by_cases hd : p.1 = d
      · subst hd
        have hrest : lookupA p.1 rest = none := (lookupA_eq_none_iff _ _).mpr hout
        unfold applyLatest at hstep ⊢
        rw [List.foldl_cons, hstep, hrest]
        simp [lookupA, lookupA_upsertA_self]
      · unfold applyLatest at hstep ⊢
        rw [List.foldl_cons, hstep]
        have hrhs : lookupA d (p :: rest) = lookupA d rest := by
          simp [lookupA, hd]
        rw [hrhs]
        rcases hcase : lookupA d rest with _ | v
        · exact lookupA_upsertA_ne (fun e2 => hd e2.symm) (stateOf p.2) t
        · rfl

theorem batch_hot_lookup {τ σ : Type} (key : τ → String) (ts : τ → ℤ)
    (stateOf : τ → σ) (rs : List τ) (t : List (String × σ)) (d : String) :
    lookupA d (applyLatest stateOf (latestMap key ts rs) t) =
      match winner ts (rs.filter (fun r => decide (key r = d))) with
      | some w => some (stateOf w)
      | none => lookupA d t := by
  rw [applyLatest_lookup stateOf (latestMap key ts rs) t d (nodupKeys_latestMap key ts rs),
    latestMap_lookup key ts d rs]

/-- C10: `ingestBatch` on an empty sequence of readings succeeds with count 0
and an empty id set, and leaves the whole database (devices, ledgers and
current-state rows) unchanged, for both the meter and the vehicle batch
endpoints. -/
theorem c10_empty_batch_is_noop (db : Db) :
    batchIngestMeterTelemetry [] db = (db, ⟨true, 0, []⟩) ∧
    batchIngestVehicleTelemetry [] db = (db, ⟨true, 0, []⟩) := by
  cases db
  constructor
  · simp [batchIngestMeterTelemetry, dedupFirst, dedupFirstAux, latestMap, applyLatest]
  · simp [batchIngestVehicleTelemetry, dedupFirst, dedupFirstAux, latestMap, applyLatest]

/-- C4: for every valid vehicle reading, `ingest` writes the current-state row
with exactly the submitted values, unconditionally replacing any existing row
(no timestamp comparison on the single-reading path), and `currentState` then
returns exactly the submitted measurements with `lastUpdated` equal to the
submitted observation timestamp. -/
theorem c4_ingest_then_current_state (db : Db) (dto : VehicleTelemetryDto)
    (_hvalid : validVehicleDto dto) :
    lookupA dto.vehicleId (ingestVehicleTelemetry dto db).1.vehicleCurrentState =
      some (dtoVState dto) ∧
    getCurrentState (ingestVehicleTelemetry dto db).1 dto.vehicleId =
      .ok ⟨dto.vehicleId, dto.soc, dto.batteryTemp, dto.kwhDeliveredDc, dto.timestamp⟩ := by
  have h1 : lookupA dto.vehicleId (ingestVehicleTelemetry dto db).1.vehicleCurrentState =
      some (dtoVState dto) := by
    simp [ingestVehicleTelemetry, lookupA_upsertA_self]
  refine ⟨h1, ?_⟩
  unfold getCurrentState
  rw [h1]
  rfl

/-- Witness database for the current-state round trip. -/
def exVehicleDto : VehicleTelemetryDto := ⟨"VEH-001", 50, 1, 20, 5⟩

theorem c4_ingest_then_current_state_witness :
    lookupA "VEH-001" (ingestVehicleTelemetry exVehicleDto emptyDb).1.vehicleCurrentState =
      some (dtoVState exVehicleDto) ∧
    getCurrentState (ingestVehicleTelemetry exVehicleDto emptyDb).1 "VEH-001" =
      .ok ⟨"VEH-001", 50, 20, 1, 5⟩ := by
  have h := c4_ingest_then_current_state emptyDb exVehicleDto
    (by norm_num [validVehicleDto, exVehicleDto])
  exact h

/-- C7: `associate(vehicleId, meterId)` fails with the not-found error exactly
when the vehicle id is unknown; when the vehicle exists it sets or replaces
the meter reference and succeeds without consulting the meter registry at all
(the meter table is left untouched and no meter existence check occurs). -/
theorem c7_associate_contract (db : Db) (vehicleId meterId : String) :
    (lookupA vehicleId db.vehicles = none →
      associateVehicleWithMeter vehicleId meterId db = .error .notFound) ∧
    (∀ v, lookupA vehicleId db.vehicles = some v →
      ∃ db2, associateVehicleWithMeter vehicleId meterId db = .ok (db2, true) ∧
        lookupA vehicleId db2.vehicles = some { v with meterId := some meterId } ∧
        db2.meters = db.meters) := by
  constructor
  · intro h
    unfold associateVehicleWithMeter
    rw [h]
  · intro v h
    refine ⟨{ db with vehicles := upsertA vehicleId { v with meterId := some meterId } db.vehicles },
      ?_, ?_, rfl⟩
    · unfold associateVehicleWithMeter
      rw [h]
    · exact lookupA_upsertA_self vehicleId _ db.vehicles

/-- Witness database holding one vehicle and no meters. -/
def dbWithV : Db := ⟨[], [("VEH-001", ⟨"Vehicle VEH-001", none⟩)], [], [], [], []⟩

theorem c7_associate_contract_witness :
    associateVehicleWithMeter "VEH-001" "METER-404" emptyDb = .error .notFound ∧
    ∃ db2, associateVehicleWithMeter "VEH-001" "METER-404" dbWithV = .ok (db2, true) ∧
      lookupA "VEH-001" db2.vehicles = some ⟨"Vehicle VEH-001", some "METER-404"⟩ ∧
      db2.meters = dbWithV.meters := by
  constructor
  · exact (c7_associate_contract emptyDb "VEH-001" "METER-404").1 rfl
  · obtain ⟨db2, h1, h2, h3⟩ :=
      (c7_associate_contract dbWithV "VEH-001" "METER-404").2 ⟨"Vehicle VEH-001", none⟩ (by
        simp [dbWithV, lookupA])
    exact ⟨db2, h1, h2, h3⟩

/-- C1 counterexample: two same-device readings with equal observation
timestamps.  The claim's comparator gives the tie to the last-occurring
reading, so the claimed winner is the second one; the code's strict-greater
comparator keeps the first-occurring reading, and the batch therefore leaves a
different current-state row than a single ingest of the claimed winner. -/
theorem c1_tie_goes_to_first_not_last :
    (⟨"VEH-001", 10, 1, 30, 5⟩ : VehicleTelemetryDto).timestamp =
      (⟨"VEH-001", 20, 2, 31, 5⟩ : VehicleTelemetryDto).timestamp ∧
    lookupA "VEH-001"
        (batchIngestVehicleTelemetry
          [⟨"VEH-001", 10, 1, 30, 5⟩, ⟨"VEH-001", 20, 2, 31, 5⟩] emptyDb).1.vehicleCurrentState ≠
      lookupA "VEH-001"
        (ingestVehicleTelemetry ⟨"VEH-001", 20, 2, 31, 5⟩ emptyDb).1.vehicleCurrentState := by
  constructor
  · rfl
  · have hbatch : lookupA "VEH-001"
        (batchIngestVehicleTelemetry
          [⟨"VEH-001", 10, 1, 30, 5⟩, ⟨"VEH-001", 20, 2, 31, 5⟩] emptyDb).1.vehicleCurrentState =
        some (dtoVState ⟨"VEH-001", 10, 1, 30, 5⟩) := by
      simp [batchIngestVehicleTelemetry, latestMap, latestInsert, applyLatest, upsertA,
        lookupA, replaceVal, emptyDb, List.foldl]
    have hsingle : lookupA "VEH-001"
        (ingestVehicleTelemetry ⟨"VEH-001", 20, 2, 31, 5⟩ emptyDb).1.vehicleCurrentState =
        some (dtoVState ⟨"VEH-001", 20, 2, 31, 5⟩) := by
      simp [ingestVehicleTelemetry, lookupA_upsertA_self]
    rw [hbatch, hsingle]
    simp [dtoVState, VehicleCurrentState.mk.injEq]

/-- C1 (amended): for every non-empty per-device subset of a batch, the
current-state row written by `ingestBatch` equals the row a single `ingest` of
that device's winning reading would write, where the winner is the reading
with the maximum observation timestamp and ties are broken by the
first-occurring (not last-occurring) position in the input sequence;
consequently the resulting row is invariant under permutations of that
device's readings whenever their observation timestamps are pairwise
distinct.  Stated for both the vehicle and the meter batch endpoints. -/
theorem c1_batch_reduction_amended (db mdb : Db) (readings : List VehicleTelemetryDto)
    (mreadings : List MeterTelemetryDto) (d md : String)
    (hne : readings.filter (fun r => decide (r.vehicleId = d)) ≠ [])
    (hmne : mreadings.filter (fun r => decide (r.meterId = md)) ≠ []) :
    (∃ w, winner (fun r => r.timestamp) (readings.filter (fun r => decide (r.vehicleId = d))) =
        some w ∧
      w ∈ readings.filter (fun r => decide (r.vehicleId = d)) ∧
      (∀ r ∈ readings.filter (fun r => decide (r.vehicleId = d)), r.timestamp ≤ w.timestamp) ∧
      (readings.filter (fun r => decide (r.vehicleId = d))).find?
        (fun r => decide (w.timestamp ≤ r.timestamp)) = some w ∧
      lookupA d (batchIngestVehicleTelemetry readings db).1.vehicleCurrentState =
        some (dtoVState w) ∧
      (∀ db2 : Db, lookupA d (ingestVehicleTelemetry w db2).1.vehicleCurrentState =
        some (dtoVState w)) ∧
      (∀ readings2 : List VehicleTelemetryDto,
        (readings.filter (fun r => decide (r.vehicleId = d))).Pairwise
          (fun a b => a.timestamp ≠ b.timestamp) →
        (readings.filter (fun r => decide (r.vehicleId = d))).Perm
          (readings2.filter (fun r => decide (r.vehicleId = d))) →
        lookupA d (batchIngestVehicleTelemetry readings2 db).1.vehicleCurrentState =
          lookupA d (batchIngestVehicleTelemetry readings db).1.vehicleCurrentState)) ∧
    (∃ w, winner (fun r => r.timestamp) (mreadings.filter (fun r => decide (r.meterId = md))) =
        some w ∧
      w ∈ mreadings.filter (fun r => decide (r.meterId = md)) ∧
      (∀ r ∈ mreadings.filter (fun r => decide (r.meterId = md)), r.timestamp ≤ w.timestamp) ∧
      (mreadings.filter (fun r => decide (r.meterId = md))).find?
        (fun r => decide (w.timestamp ≤ r.timestamp)) = some w ∧
      lookupA md (batchIngestMeterTelemetry mreadings mdb).1.meterCurrentState =
        some (dtoMState w) ∧
      (∀ db2 : Db, lookupA md (ingestMeterTelemetry w db2).1.meterCurrentState =
        some (dtoMState w)) ∧
      (∀ mreadings2 : List MeterTelemetryDto,
        (mreadings.filter (fun r => decide (r.meterId = md))).Pairwise
          (fun a b => a.timestamp ≠ b.timestamp) →
        (mreadings.filter (fun r => decide (r.meterId = md))).Perm
          (mreadings2.filter (fun r => decide (r.meterId = md))) →
        lookupA md (batchIngestMeterTelemetry mreadings2 mdb).1.meterCurrentState =
          lookupA md (batchIngestMeterTelemetry mreadings mdb).1.meterCurrentState)) := by
  constructor
  · obtain ⟨w, hw⟩ := winner_isSome (fun r : VehicleTelemetryDto => r.timestamp) hne
    obtain ⟨hmem, hmax, hfind⟩ := winner_spec (fun r : VehicleTelemetryDto => r.timestamp) hw
    have hkey : w.vehicleId = d := of_decide_eq_true (List.mem_filter.mp hmem).2
    refine ⟨w, hw, hmem, hmax, hfind, ?_, ?_, ?_⟩
    · have hb := batch_hot_lookup (fun r : VehicleTelemetryDto => r.vehicleId)
        (fun r => r.timestamp) dtoVState readings db.vehicleCurrentState d
      rw [hw] at hb
      simpa [batchIngestVehicleTelemetry] using hb
    · intro db2
      have : lookupA d (upsertA w.vehicleId (dtoVState w) db2.vehicleCurrentState) =
          some (dtoVState w) := by
        rw [← hkey]
        exact lookupA_upsertA_self _ _ _
      simpa [ingestVehicleTelemetry] using this
    · intro readings2 hpw hperm
      have hwin := winner_perm (fun r : VehicleTelemetryDto => r.timestamp) hpw hperm
      have hb1 := batch_hot_lookup (fun r : VehicleTelemetryDto => r.vehicleId)
        (fun r => r.timestamp) dtoVState readings2 db.vehicleCurrentState d
      have hb2 := batch_hot_lookup (fun r : VehicleTelemetryDto => r.vehicleId)
        (fun r => r.timestamp) dtoVState readings db.vehicleCurrentState d
      rw [← hwin] at hb1
      simp only [batchIngestVehicleTelemetry]
      rw [hb1, hb2]
  · obtain ⟨w, hw⟩ := winner_isSome (fun r : MeterTelemetryDto => r.timestamp) hmne
    obtain ⟨hmem, hmax, hfind⟩ := winner_spec (fun r : MeterTelemetryDto => r.timestamp) hw
    have hkey : w.meterId = md := of_decide_eq_true (List.mem_filter.mp hmem).2
    refine ⟨w, hw, hmem, hmax, hfind, ?_, ?_, ?_⟩
    · have hb := batch_hot_lookup (fun r : MeterTelemetryDto => r.meterId)
        (fun r => r.timestamp) dtoMState mreadings mdb.meterCurrentState md
      rw [hw] at hb
      simpa [batchIngestMeterTelemetry] using hb
    · intro db2
      have : lookupA md (upsertA w.meterId (dtoMState w) db2.meterCurrentState) =
          some (dtoMState w) := by
        rw [← hkey]
        exact lookupA_upsertA_self _ _ _
      simpa [ingestMeterTelemetry] using this
    · intro mreadings2 hpw hperm
      have hwin := winner_perm (fun r : MeterTelemetryDto => r.timestamp) hpw hperm
      have hb1 := batch_hot_lookup (fun r : MeterTelemetryDto => r.meterId)
        (fun r => r.timestamp) dtoMState mreadings2 mdb.meterCurrentState md
      have hb2 := batch_hot_lookup (fun r : MeterTelemetryDto => r.meterId)
        (fun r => r.timestamp) dtoMState mreadings mdb.meterCurrentState md
      rw [← hwin] at hb1
      simp only [batchIngestMeterTelemetry]
      rw [hb1, hb2]

theorem c1_batch_reduction_amended_witness :
    ∃ w, winner (fun r : VehicleTelemetryDto => r.timestamp)
        ([(⟨"VEH-001", 10, 1, 30, 5⟩ : VehicleTelemetryDto), ⟨"VEH-001", 20, 2, 31, 7⟩].filter
          (fun r => decide (r.vehicleId = "VEH-001"))) = some w ∧
      lookupA "VEH-001" (batchIngestVehicleTelemetry
          [⟨"VEH-001", 10, 1, 30, 5⟩, ⟨"VEH-001", 20, 2, 31, 7⟩] emptyDb).1.vehicleCurrentState =
        some (dtoVState w) := by
  obtain ⟨⟨w, hw, hmem, hmax, hfind, hbatch, hing, hperm⟩, hmpart⟩ :=
    c1_batch_reduction_amended emptyDb emptyDb
      [⟨"VEH-001", 10, 1, 30, 5⟩, ⟨"VEH-001", 20, 2, 31, 7⟩]
      [⟨"METER-001", 1, 230, 5⟩] "VEH-001" "METER-001" (by decide) (by decide)
  exact ⟨w, hw, hbatch⟩

theorem applyOp_vehicle_lookup_untouched (db : Db) (op : IngestOp) (d : String)
    (h : vehicleSubOf d op = []) :
    lookupA d (applyOp db op).vehicleCurrentState = lookupA d db.vehicleCurrentState := by
  cases op with
  | meterSingle r => rfl
  | meterBatch rs => rfl
  | vehicleSingle r =>
      by_cases hk : r.vehicleId = d
      · simp [vehicleSubOf, hk] at h
      · have : lookupA d (upsertA r.vehicleId (dtoVState r) db.vehicleCurrentState) =
            lookupA d db.vehicleCurrentState :=
          lookupA_upsertA_ne (fun e => hk e.symm) _ _
        simpa [applyOp, ingestVehicleTelemetry] using this
  | vehicleBatch rs =>
      have hf : rs.filter (fun r => decide (r.vehicleId = d)) = [] := by
        simpa [vehicleSubOf] using h
      have hb := batch_hot_lookup (fun r : VehicleTelemetryDto => r.vehicleId)
        (fun r => r.timestamp) dtoVState rs db.vehicleCurrentState d
      rw [hf] at hb
      simpa [applyOp, batchIngestVehicleTelemetry, winner] using hb

theorem runOps_vehicle_lookup_untouched (d : String) :
    ∀ (ops : List IngestOp) (db : Db), vehicleReadingsFor d ops = [] →
      lookupA d (runOps db ops).vehicleCurrentState = lookupA d db.vehicleCurrentState := by
  intro ops
  induction ops with
  | nil => intro db _; rfl
  | cons op rest ih =>
      intro db h
      have h2 : vehicleSubOf d op = [] ∧ vehicleReadingsFor d rest = [] := by
        simpa [vehicleReadingsFor] using h
      rw [show runOps db (op :: rest) = runOps (applyOp db op) rest from rfl]
      rw [ih (applyOp db op) h2.2, applyOp_vehicle_lookup_untouched db op d h2.1]

theorem applyOp_vehicle_lookup_touched (db : Db) (op : IngestOp) (d : String)
    (h : vehicleSubOf d op ≠ []) :
    ∃ st, lookupA d (applyOp db op).vehicleCurrentState = some st ∧
      (∃ r ∈ vehicleSubOf d op, st.lastTimestamp = r.timestamp) ∧
      ∀ r ∈ vehicleSubOf d op, r.timestamp ≤ st.lastTimestamp := by
  cases op with
  | meterSingle r => simp [vehicleSubOf] at h
  | meterBatch rs => simp [vehicleSubOf] at h
  | vehicleSingle r =>
      by_cases hk : r.vehicleId = d
      · refine ⟨dtoVState r, ?_, ⟨r, ?_, rfl⟩, ?_⟩
        · have : lookupA d (upsertA r.vehicleId (dtoVState r) db.vehicleCurrentState) =
              some (dtoVState r) := by
            rw [hk]
            exact lookupA_upsertA_self _ _ _
          simpa [applyOp, ingestVehicleTelemetry] using this
        · simp [vehicleSubOf, hk]
        · intro x hx
          simp [vehicleSubOf, hk] at hx
          subst hx
          exact le_refl _
      · simp [vehicleSubOf, hk] at h
  | vehicleBatch rs =>
      have hf : rs.filter (fun r => decide (r.vehicleId = d)) ≠ [] := by
        simpa [vehicleSubOf] using h
      obtain ⟨w, hw⟩ := winner_isSome (fun r : VehicleTelemetryDto => r.timestamp) hf
      obtain ⟨hmem, hmax, _⟩ := winner_spec (fun r : VehicleTelemetryDto => r.timestamp) hw
      refine ⟨dtoVState w, ?_, ⟨w, ?_, rfl⟩, ?_⟩
      · have hb := batch_hot_lookup (fun r : VehicleTelemetryDto => r.vehicleId)
          (fun r => r.timestamp) dtoVState rs db.vehicleCurrentState d
        rw [hw] at hb
        simpa [applyOp, batchIngestVehicleTelemetry] using hb
      · simpa [vehicleSubOf] using hmem
      · intro x hx
        exact hmax x (by simpa [vehicleSubOf] using hx)

theorem applyOp_meter_lookup_untouched (db : Db) (op : IngestOp) (d : String)
    (h : meterSubOf d op = []) :
    lookupA d (applyOp db op).meterCurrentState = lookupA d db.meterCurrentState := by
  cases op with
  | vehicleSingle r => rfl
  | vehicleBatch rs => rfl
  | meterSingle r =>
      by_cases hk : r.meterId = d
      · simp [meterSubOf, hk] at h
      · have : lookupA d (upsertA r.meterId (dtoMState r) db.meterCurrentState) =
            lookupA d db.meterCurrentState :=
          lookupA_upsertA_ne (fun e => hk e.symm) _ _
        simpa [applyOp, ingestMeterTelemetry] using this
  | meterBatch rs =>
      have hf : rs.filter (fun r => decide (r.meterId = d)) = [] := by
        simpa [meterSubOf] using h
      have hb := batch_hot_lookup (fun r : MeterTelemetryDto => r.meterId)
        (fun r => r.timestamp) dtoMState rs db.meterCurrentState d
      rw [hf] at hb
      simpa [applyOp, batchIngestMeterTelemetry, winner] using hb

theorem runOps_meter_lookup_untouched (d : String) :
    ∀ (ops : List IngestOp) (db : Db), meterReadingsFor d ops = [] →
      lookupA d (runOps db ops).meterCurrentState = lookupA d db.meterCurrentState := by
  intro ops
  induction ops with
  | nil => intro db _; rfl
  | cons op rest ih =>
      intro db h
      have h2 : meterSubOf d op = [] ∧ meterReadingsFor d rest = [] := by
        simpa [meterReadingsFor] using h
      rw [show runOps db (op :: rest) = runOps (applyOp db op) rest from rfl]
      rw [ih (applyOp db op) h2.2, applyOp_meter_lookup_untouched db op d h2.1]

theorem applyOp_meter_lookup_touched (db : Db) (op : IngestOp) (d : String)
    (h : meterSubOf d op ≠ []) :
    ∃ st, lookupA d (applyOp db op).meterCurrentState = some st ∧
      (∃ r ∈ meterSubOf d op, st.lastTimestamp = r.timestamp) ∧
      ∀ r ∈ meterSubOf d op, r.timestamp ≤ st.lastTimestamp := by
  cases op with
  | vehicleSingle r => simp [meterSubOf] at h
  | vehicleBatch rs => simp [meterSubOf] at h
  | meterSingle r =>
      by_cases hk : r.meterId = d
      · refine ⟨dtoMState r, ?_, ⟨r, ?_, rfl⟩, ?_⟩
        · have : lookupA d (upsertA r.meterId (dtoMState r) db.meterCurrentState) =
              some (dtoMState r) := by
            rw [hk]
            exact lookupA_upsertA_self _ _ _
          simpa [applyOp, ingestMeterTelemetry] using this
        · simp [meterSubOf, hk]
        · intro x hx
          simp [meterSubOf, hk] at hx
          subst hx
          exact le_refl _
      · simp [meterSubOf, hk] at h
  | meterBatch rs =>
      have hf : rs.filter (fun r => decide (r.meterId = d)) ≠ [] := by
        simpa [meterSubOf] using h
      obtain ⟨w, hw⟩ := winner_isSome (fun r : MeterTelemetryDto => r.timestamp) hf
      obtain ⟨hmem, hmax, _⟩ := winner_spec (fun r : MeterTelemetryDto => r.timestamp) hw
      refine ⟨dtoMState w, ?_, ⟨w, ?_, rfl⟩, ?_⟩
      · have hb := batch_hot_lookup (fun r : MeterTelemetryDto => r.meterId)
          (fun r => r.timestamp) dtoMState rs db.meterCurrentState d
        rw [hw] at hb
        simpa [applyOp, batchIngestMeterTelemetry] using hb
      · simpa [meterSubOf] using hmem
      · intro x hx
        exact hmax x (by simpa [meterSubOf] using hx)

/-- C2 counterexample: two single-reading ingest calls for the same vehicle
arriving out of observation-timestamp order.  The second call overwrites the
current-state row unconditionally, so `lastTimestamp` ends at 5 although a
reading with observation timestamp 10 was accepted earlier: the row does not
hold the maximum accepted observation timestamp. -/
theorem c2_last_timestamp_regresses_out_of_order :
    vehicleReadingsFor "VEH-001"
        [IngestOp.vehicleSingle ⟨"VEH-001", 50, 1, 20, 10⟩,
          IngestOp.vehicleSingle ⟨"VEH-001", 60, 2, 21, 5⟩] =
      [⟨"VEH-001", 50, 1, 20, 10⟩, ⟨"VEH-001", 60, 2, 21, 5⟩] ∧
    lookupA "VEH-001" (runOps emptyDb
        [IngestOp.vehicleSingle ⟨"VEH-001", 50, 1, 20, 10⟩,
          IngestOp.vehicleSingle ⟨"VEH-001", 60, 2, 21, 5⟩]).vehicleCurrentState =
      some (dtoVState ⟨"VEH-001", 60, 2, 21, 5⟩) ∧
    (dtoVState (⟨"VEH-001", 60, 2, 21, 5⟩ : VehicleTelemetryDto)).lastTimestamp <
      (⟨"VEH-001", 50, 1, 20, 10⟩ : VehicleTelemetryDto).timestamp := by
  refine ⟨rfl, rfl, ?_⟩
  decide

/-- C2 (amended): for every device, `lastTimestamp` equals the maximum
observation timestamp over all readings accepted for that device whenever the
device's readings arrive with non-decreasing observation timestamps across the
sequence of `ingest` and `ingestBatch` calls; out-of-order single-reading
arrivals can make it regress (see the counterexample).  Stated for vehicle and
meter devices over arbitrary interleavings of all four ingestion calls. -/
theorem c2_last_timestamp_is_max_for_ordered_streams (d : String) :
    (∀ (ops : List IngestOp) (db : Db),
      (vehicleReadingsFor d ops).Pairwise (fun a b => a.timestamp ≤ b.timestamp) →
      vehicleReadingsFor d ops ≠ [] →
      ∃ st, lookupA d (runOps db ops).vehicleCurrentState = some st ∧
        (∃ r ∈ vehicleReadingsFor d ops, st.lastTimestamp = r.timestamp) ∧
        ∀ r ∈ vehicleReadingsFor d ops, r.timestamp ≤ st.lastTimestamp) ∧
    (∀ (ops : List IngestOp) (db : Db),
      (meterReadingsFor d ops).Pairwise (fun a b => a.timestamp ≤ b.timestamp) →
      meterReadingsFor d ops ≠ [] →
      ∃ st, lookupA d (runOps db ops).meterCurrentState = some st ∧
        (∃ r ∈ meterReadingsFor d ops, st.lastTimestamp = r.timestamp) ∧
        ∀ r ∈ meterReadingsFor d ops, r.timestamp ≤ st.lastTimestamp) := by
  constructor
  · intro ops
    induction ops with
    | nil =>
        intro db _ hne
        exact absurd rfl hne
    | cons op rest ih =>
        intro db hsorted hne
        have hsplit : vehicleReadingsFor d (op :: rest) =
            vehicleSubOf d op ++ vehicleReadingsFor d rest := rfl
        have hrun : runOps db (op :: rest) = runOps (applyOp db op) rest := rfl
        by_cases hop : vehicleSubOf d op = []
        · have heq : vehicleReadingsFor d (op :: rest) = vehicleReadingsFor d rest := by
            rw [hsplit, hop, List.nil_append]
          rw [heq] at hsorted hne ⊢
          rw [hrun]
          exact ih (applyOp db op) hsorted hne
        · by_cases hrest : vehicleReadingsFor d rest = []
          · obtain ⟨st, hst, hw, hmax⟩ := applyOp_vehicle_lookup_touched db op d hop
            refine ⟨st, ?_, ?_, ?_⟩
            · rw [hrun, runOps_vehicle_lookup_untouched d rest (applyOp db op) hrest]
              exact hst
            · obtain ⟨r, hrmem, hr⟩ := hw
              exact ⟨r, by rw [hsplit]; exact List.mem_append_left _ hrmem, hr⟩
            · intro r hr
              rw [hsplit] at hr
              rcases List.mem_append.mp hr with h1 | h2
              · exact hmax r h1
              · rw [hrest] at h2
                simp at h2
          · obtain ⟨hp1, hp2, hcross⟩ := List.pairwise_append.mp (by rwa [hsplit] at hsorted)
            obtain ⟨st, hst, hwit, hmax2⟩ := ih (applyOp db op) hp2 hrest
            refine ⟨st, by rw [hrun]; exact hst, ?_, ?_⟩
            · obtain ⟨r, hrmem, hr⟩ := hwit
              exact ⟨r, by rw [hsplit]; exact List.mem_append_right _ hrmem, hr⟩
            · intro r hr
              rw [hsplit] at hr
              rcases List.mem_append.mp hr with h1 | h2
              · obtain ⟨b, hbmem, hb⟩ := hwit
                rw [hb]
                exact hcross r h1 b hbmem
              · exact hmax2 r h2
  · intro ops
    induction ops with
    | nil =>
        intro db _ hne
        exact absurd rfl hne
    | cons op rest ih =>
        intro db hsorted hne
        have hsplit : meterReadingsFor d (op :: rest) =
            meterSubOf d op ++ meterReadingsFor d rest := rfl
        have hrun : runOps db (op :: rest) = runOps (applyOp db op) rest := rfl
        by_cases hop : meterSubOf d op = []
        · have heq : meterReadingsFor d (op :: rest) = meterReadingsFor d rest := by
            rw [hsplit, hop, List.nil_append]
          rw [heq] at hsorted hne ⊢
          rw [hrun]
          exact ih (applyOp db op) hsorted hne
        · by_cases hrest : meterReadingsFor d rest = []
          · obtain ⟨st, hst, hw, hmax⟩ := applyOp_meter_lookup_touched db op d hop
            refine ⟨st, ?_, ?_, ?_⟩
            · rw [hrun, runOps_meter_lookup_untouched d rest (applyOp db op) hrest]
              exact hst
            · obtain ⟨r, hrmem, hr⟩ := hw
              exact ⟨r, by rw [hsplit]; exact List.mem_append_left _ hrmem, hr⟩
            · intro r hr
              rw [hsplit] at hr
              rcases List.mem_append.mp hr with h1 | h2
              · exact hmax r h1
              · rw [hrest] at h2
                simp at h2
          · obtain ⟨hp1, hp2, hcross⟩ := List.pairwise_append.mp (by rwa [hsplit] at hsorted)
            obtain ⟨st, hst, hwit, hmax2⟩ := ih (applyOp db op) hp2 hrest
            refine ⟨st, by rw [hrun]; exact hst, ?_, ?_⟩
            · obtain ⟨r, hrmem, hr⟩ := hwit
              exact ⟨r, by rw [hsplit]; exact List.mem_append_right _ hrmem, hr⟩
            · intro r hr
              rw [hsplit] at hr
              rcases List.mem_append.mp hr with h1 | h2
              · obtain ⟨b, hbmem, hb⟩ := hwit
                rw [hb]
                exact hcross r h1 b hbmem
              · exact hmax2 r h2

theorem c2_last_timestamp_is_max_for_ordered_streams_witness :
    ∃ st, lookupA "VEH-001" (runOps emptyDb
        [IngestOp.vehicleSingle ⟨"VEH-001", 50, 1, 20, 5⟩,
          IngestOp.vehicleBatch [⟨"VEH-001", 60, 2, 21, 7⟩]]).vehicleCurrentState = some st ∧
      (∃ r ∈ vehicleReadingsFor "VEH-001"
          [IngestOp.vehicleSingle ⟨"VEH-001", 50, 1, 20, 5⟩,
            IngestOp.vehicleBatch [⟨"VEH-001", 60, 2, 21, 7⟩]],
        st.lastTimestamp = r.timestamp) ∧
      ∀ r ∈ vehicleReadingsFor "VEH-001"
          [IngestOp.vehicleSingle ⟨"VEH-001", 50, 1, 20, 5⟩,
            IngestOp.vehicleBatch [⟨"VEH-001", 60, 2, 21, 7⟩]],
        r.timestamp ≤ st.lastTimestamp :=
  (c2_last_timestamp_is_max_for_ordered_streams "VEH-001").1
    [IngestOp.vehicleSingle ⟨"VEH-001", 50, 1, 20, 5⟩,
      IngestOp.vehicleBatch [⟨"VEH-001", 60, 2, 21, 7⟩]]
    emptyDb (by decide) (by decide)

theorem sumPosDeltas_eq_specConsecMaxSum : ∀ l : List ℚ, sumPosDeltas l = specConsecMaxSum l := by
  intro l
  induction l with
  | nil => rfl
  | cons a t ih =>
      cases t with
      | nil => rfl
      | cons b rest =>
          have hz : specConsecMaxSum (a :: b :: rest) =
              max 0 (b - a) + specConsecMaxSum (b :: rest) := by
            simp [specConsecMaxSum]
          rw [hz, ← ih]
          show (if 0 < b - a then b - a else 0) + sumPosDeltas (b :: rest) =
            max 0 (b - a) + sumPosDeltas (b :: rest)
          congr 1
          rcases le_or_lt (b - a) 0 with h | h
          · rw [if_neg (not_lt.mpr h), max_eq_left h]
          · rw [if_pos h, max_eq_right h.le]

theorem sumPosDeltas_nonneg : ∀ l : List ℚ, 0 ≤ sumPosDeltas l := by
  intro l
  induction l with
  | nil => exact le_refl 0
  | cons a t ih =>
      cases t with
      | nil => exact le_refl 0
      | cons b rest =>
          show 0 ≤ (if 0 < b - a then b - a else 0) + sumPosDeltas (b :: rest)
          have h1 : 0 ≤ (if 0 < b - a then b - a else 0) := by
            split
            · linarith
            · exact le_refl 0
          exact add_nonneg h1 ih

theorem cumulativeTotal_nonneg (l : List ℚ) : 0 ≤ cumulativeTotal l := by
  cases l with
  | nil => exact le_refl 0
  | cons v rest =>
      show 0 ≤ (if List.getLastD rest v - v < 0 then sumPosDeltas (v :: rest)
        else List.getLastD rest v - v)
      split
      · exact sumPosDeltas_nonneg _
      · linarith [not_lt.mp (by assumption : ¬ List.getLastD rest v - v < 0)]

/-- C3: the cumulative-delta algorithm used on both windowed counter series
(vehicle DC delivered via `rawDc`, meter AC consumed inside `rawAc`) returns
last-minus-first when that difference is non-negative, the sum of
`max(0, r[i] - r[i-1])` over consecutive pairs when it is negative (counter
reset), and `0` for an empty series; in particular `[100, 101, 102]` gives `2`
and the reset series `[100, 101, 5, 6]` also gives `2`. -/
theorem c3_cumulative_delta_algorithm :
    cumulativeTotal [] = 0 ∧
    (∀ (v : ℚ) (rest : List ℚ), 0 ≤ List.getLastD rest v - v →
      cumulativeTotal (v :: rest) = List.getLastD rest v - v) ∧
    (∀ (v : ℚ) (rest : List ℚ), List.getLastD rest v - v < 0 →
      cumulativeTotal (v :: rest) = specConsecMaxSum (v :: rest)) ∧
    (∀ (db : Db) (vid : String) (ps pe : ℤ),
      rawDc db vid ps pe =
        cumulativeTotal ((vehicleWindow db vid ps pe).map (fun r => r.kwhDeliveredDc))) ∧
    cumulativeTotal [100, 101, 102] = 2 ∧
    cumulativeTotal [100, 101, 5, 6] = 2 := by
  refine ⟨rfl, ?_, ?_, fun db vid ps pe => rfl, ?_, ?_⟩
  · intro v rest h
    show (if List.getLastD rest v - v < 0 then sumPosDeltas (v :: rest)
      else List.getLastD rest v - v) = List.getLastD rest v - v
    rw [if_neg (not_lt.mpr h)]
  · intro v rest h
    show (if List.getLastD rest v - v < 0 then sumPosDeltas (v :: rest)
      else List.getLastD rest v - v) = specConsecMaxSum (v :: rest)
    rw [if_pos h, sumPosDeltas_eq_specConsecMaxSum]
  · norm_num [cumulativeTotal, sumPosDeltas, List.getLastD]
  · norm_num [cumulativeTotal, sumPosDeltas, List.getLastD]

theorem c3_cumulative_delta_algorithm_witness :
    cumulativeTotal [100, 101, 102] = List.getLastD [101, 102] 100 - 100 ∧
    cumulativeTotal [100, 101, 5, 6] = specConsecMaxSum [100, 101, 5, 6] := by
  have h := c3_cumulative_delta_algorithm
  constructor
  · exact h.2.1 100 [101, 102] (by norm_num [List.getLastD])
  · exact h.2.2.1 100 [101, 5, 6] (by norm_num [List.getLastD])

/-- C5: the efficiency status reported by `getPerformanceSummary` is computed
by `efficiencyStatusOf` on the (always non-negative) efficiency ratio, which
classifies `ratio ≥ 85` as HEALTHY, `75 ≤ ratio < 85` as WARNING,
`0 < ratio < 75` as CRITICAL, and `ratio = 0` (in particular: no AC data) as
the HEALTHY default. -/
theorem c5_efficiency_status_thresholds (db : Db) (vid : String) (now : ℤ)
    (s : PerformanceSummary) (h : getPerformanceSummary db vid now = .ok s) :
    s.efficiencyStatus = efficiencyStatusOf (rawRatio db vid (now - 86400000) now) ∧
    0 ≤ rawRatio db vid (now - 86400000) now ∧
    (∀ q : ℚ, (85 ≤ q → efficiencyStatusOf q = .HEALTHY) ∧
      (75 ≤ q ∧ q < 85 → efficiencyStatusOf q = .WARNING) ∧
      (0 < q ∧ q < 75 → efficiencyStatusOf q = .CRITICAL) ∧
      (q = 0 → efficiencyStatusOf q = .HEALTHY)) := by
  refine ⟨?_, ?_, ?_⟩
  · simp only [getPerformanceSummary] at h
    rcases hv : lookupA vid db.vehicles with _ | v
    · rw [hv] at h
      simp at h
    · rw [hv] at h
      injection h with h2
      subst h2
      rfl
  · unfold rawRatio
    split
    · have hdc : (0 : ℚ) ≤ rawDc db vid (now - 86400000) now := cumulativeTotal_nonneg _
      have hac : (0 : ℚ) < rawAc db vid (now - 86400000) now := by assumption
      exact mul_nonneg (div_nonneg hdc hac.le) (by norm_num)
    · exact le_refl 0
  · intro q
    refine ⟨?_, ?_, ?_, ?_⟩
    · intro hq
      unfold efficiencyStatusOf
      split_ifs <;> first | rfl | linarith
    · intro hq
      unfold efficiencyStatusOf
      split_ifs <;> first | rfl | linarith [hq.1, hq.2]
    · intro hq
      unfold efficiencyStatusOf
      split_ifs <;> first | rfl | linarith [hq.1, hq.2]
    · intro hq
      unfold efficiencyStatusOf
      split_ifs <;> first | rfl | linarith

/-- The summary returned for a registered vehicle with no readings and no
associated meter, used as a concrete instance. -/
def exS5 : PerformanceSummary :=
  ⟨"VEH-001", none, -86400000, 0, 0, 0, 0, 0, 0, 0, .HEALTHY⟩

theorem c5_efficiency_status_thresholds_witness :
    getPerformanceSummary dbWithV "VEH-001" 0 = .ok exS5 ∧
    exS5.efficiencyStatus = efficiencyStatusOf (rawRatio dbWithV "VEH-001" (0 - 86400000) 0) ∧
    efficiencyStatusOf (862/10) = .HEALTHY ∧
    efficiencyStatusOf 80 = .WARNING ∧
    efficiencyStatusOf 50 = .CRITICAL ∧
    efficiencyStatusOf 0 = .HEALTHY := by
  have hok : getPerformanceSummary dbWithV "VEH-001" 0 = .ok exS5 := by
    norm_num [getPerformanceSummary, dbWithV, lookupA, rawAc, rawDc, rawRatio, rawAvgTemp,
      vehicleWindow, meterWindow, cumulativeTotal, round2, efficiencyStatusOf, exS5,
      List.insertionSort, List.filter]
  have h := c5_efficiency_status_thresholds dbWithV "VEH-001" 0 exS5 hok
  refine ⟨hok, h.1, ?_, ?_, ?_, ?_⟩
  · exact (h.2.2 (862/10)).1 (by norm_num)
  · exact (h.2.2 80).2.1 ⟨by norm_num, by norm_num⟩
  · exact (h.2.2 50).2.2.1 ⟨by norm_num, by norm_num⟩
  · exact (h.2.2 0).2.2.2 rfl

/-- C6: the efficiency ratio equals `(totalDcDelivered / totalAcConsumed) * 100`
when `totalAcConsumed > 0` and `0` otherwise, and every reported numeric
output of the summary (both energy totals, the ratio and the average battery
temperature) is the two-decimal rounding of the corresponding raw value. -/
theorem c6_ratio_formula_and_rounding (db : Db) (vid : String) (now : ℤ)
    (s : PerformanceSummary) (h : getPerformanceSummary db vid now = .ok s) :
    rawRatio db vid (now - 86400000) now =
      (if 0 < rawAc db vid (now - 86400000) now then
        rawDc db vid (now - 86400000) now / rawAc db vid (now - 86400000) now * 100
      else 0) ∧
    s.totalAcConsumed = round2 (rawAc db vid (now - 86400000) now) ∧
    s.totalDcDelivered = round2 (rawDc db vid (now - 86400000) now) ∧
    s.efficiencyRatio = round2 (rawRatio db vid (now - 86400000) now) ∧
    s.avgBatteryTemp = round2 (rawAvgTemp db vid (now - 86400000) now) := by
  simp only [getPerformanceSummary] at h
  rcases hv : lookupA vid db.vehicles with _ | v
  · rw [hv] at h
    simp at h
  · rw [hv] at h
    injection h with h2
    subst h2
    exact ⟨rfl, rfl, rfl, rfl, rfl⟩

theorem c6_ratio_formula_and_rounding_witness :
    exS5.totalAcConsumed = round2 (rawAc dbWithV "VEH-001" (0 - 86400000) 0) ∧
    exS5.efficiencyRatio = round2 (rawRatio dbWithV "VEH-001" (0 - 86400000) 0) := by
  have hok : getPerformanceSummary dbWithV "VEH-001" 0 = .ok exS5 := by
    norm_num [getPerformanceSummary, dbWithV, lookupA, rawAc, rawDc, rawRatio, rawAvgTemp,
      vehicleWindow, meterWindow, cumulativeTotal, round2, efficiencyStatusOf, exS5,
      List.insertionSort, List.filter]
  have h := c6_ratio_formula_and_rounding dbWithV "VEH-001" 0 exS5 hok
  exact ⟨h.2.1, h.2.2.2.1⟩

/-- Concrete database for the rounding-versus-classification boundary: the
vehicle delivered 84.999 kWh DC while its associated meter consumed 100 kWh
AC inside the window, so the exact ratio is 84.999. -/
def exDb9 : Db :=
  ⟨[("METER-001", ⟨"Meter METER-001"⟩)],
    [("VEH-001", ⟨"Vehicle VEH-001", some "METER-001"⟩)],
    [⟨"METER-001", 0, 230, 1000⟩, ⟨"METER-001", 100, 230, 2000⟩],
    [⟨"VEH-001", 50, 0, 20, 1000⟩, ⟨"VEH-001", 50, 84999/1000, 20, 2000⟩],
    [], []⟩

/-- The summary `exDb9` produces at `now = 86400000`: the reported ratio is
rounded up to 85 while the status was classified from the exact 84.999. -/
def exS9 : PerformanceSummary :=
  ⟨"VEH-001", some "METER-001", 0, 86400000, 100, 85, 85, 20, 2, 2, .WARNING⟩

/-- C9: `getPerformanceSummary` classifies the status from the unrounded
ratio and only rounds the reported ratio afterwards; on `exDb9` the exact
ratio 84.999 is reported as `efficiencyRatio = 85` together with
`efficiencyStatus = WARNING`. -/
theorem c9_status_uses_unrounded_ratio :
    (∀ (db : Db) (vid : String) (now : ℤ) (s : PerformanceSummary),
      getPerformanceSummary db vid now = .ok s →
      s.efficiencyStatus = efficiencyStatusOf (rawRatio db vid (now - 86400000) now) ∧
      s.efficiencyRatio = round2 (rawRatio db vid (now - 86400000) now)) ∧
    rawRatio exDb9 "VEH-001" (86400000 - 86400000) 86400000 < 85 ∧
    getPerformanceSummary exDb9 "VEH-001" 86400000 = .ok exS9 ∧
    exS9.efficiencyRatio = 85 ∧ exS9.efficiencyStatus = .WARNING := by
  have hrr : rawRatio exDb9 "VEH-001" (86400000 - 86400000) 86400000 = 84999/1000 := by
    norm_num [rawRatio, rawAc, rawDc, exDb9, lookupA, vehicleWindow, meterWindow,
      cumulativeTotal, List.insertionSort, List.orderedInsert, List.filter, List.getLastD]
  refine ⟨?_, ?_, ?_, rfl, rfl⟩
  · intro db vid now s h
    simp only [getPerformanceSummary] at h
    rcases hv : lookupA vid db.vehicles with _ | v
    · rw [hv] at h
      simp at h
    · rw [hv] at h
      injection h with h2
      subst h2
      exact ⟨rfl, rfl⟩
  · rw [hrr]
    norm_num
  · have hv : lookupA "VEH-001" exDb9.vehicles =
        some ⟨"Vehicle VEH-001", some "METER-001"⟩ := by
      norm_num [exDb9, lookupA]
    simp only [getPerformanceSummary]
    rw [hv]
    have h1 : round2 (rawAc exDb9 "VEH-001" (86400000 - 86400000) 86400000) = 100 := by
      norm_num [rawAc, exDb9, lookupA, meterWindow, cumulativeTotal, round2,
        List.insertionSort, List.orderedInsert, List.filter, List.getLastD]
    have h2 : round2 (rawDc exDb9 "VEH-001" (86400000 - 86400000) 86400000) = 85 := by
      norm_num [rawDc, exDb9, vehicleWindow, cumulativeTotal, round2,
        List.insertionSort, List.orderedInsert, List.filter, List.getLastD]
    have h3 : round2 (rawRatio exDb9 "VEH-001" (86400000 - 86400000) 86400000) = 85 := by
      rw [hrr]
      norm_num [round2]
    have h4 : round2 (rawAvgTemp exDb9 "VEH-001" (86400000 - 86400000) 86400000) = 20 := by
      norm_num [rawAvgTemp, exDb9, vehicleWindow, round2,
        List.insertionSort, List.orderedInsert, List.filter]
    have h5 : efficiencyStatusOf (rawRatio exDb9 "VEH-001" (86400000 - 86400000) 86400000) =
        .WARNING := by
      rw [hrr]
      norm_num [efficiencyStatusOf]
    have h6 : (vehicleWindow exDb9 "VEH-001" (86400000 - 86400000) 86400000).length = 2 := by
      norm_num [vehicleWindow, exDb9, List.insertionSort, List.orderedInsert, List.filter]
    have h7 : (meterWindow exDb9 "METER-001" (86400000 - 86400000) 86400000).length = 2 := by
      norm_num [meterWindow, exDb9, List.insertionSort, List.orderedInsert, List.filter]
    simp only [h1, h2, h3, h4, h5, h6, h7, exS9]
    norm_num

theorem c9_status_uses_unrounded_ratio_witness :
    exS9.efficiencyStatus =
      efficiencyStatusOf (rawRatio exDb9 "VEH-001" (86400000 - 86400000) 86400000) ∧
    exS9.efficiencyRatio =
      round2 (rawRatio exDb9 "VEH-001" (86400000 - 86400000) 86400000) := by
  have h := c9_status_uses_unrounded_ratio
  exact h.1 exDb9 "VEH-001" 86400000 exS9 h.2.2.1

/-- C8: `getFleetStats` counts all registered devices, classifies a
current-state row as active exactly when its `lastTimestamp` is at least
`now` minus five minutes — so a row that is ten minutes old is excluded —
and reports the two fleet averages over active vehicle rows only, with `0`
(rounded) when no vehicle is active. -/
theorem c8_fleet_stats_active_classification (db : Db) (now : ℤ) :
    (getFleetStats db now).totalVehicles = db.vehicles.length ∧
    (getFleetStats db now).totalMeters = db.meters.length ∧
    (getFleetStats db now).activeVehicles = (activeVehicleStates db now).length ∧
    (getFleetStats db now).activeMeters = (activeMeterStates db now).length ∧
    (∀ p ∈ db.vehicleCurrentState,
      (p ∈ activeVehicleStates db now ↔ now - 300000 ≤ p.2.lastTimestamp)) ∧
    (∀ p ∈ db.vehicleCurrentState, p.2.lastTimestamp = now - 600000 →
      p ∉ activeVehicleStates db now) ∧
    (∀ p ∈ db.meterCurrentState, p.2.lastTimestamp = now - 600000 →
      p ∉ activeMeterStates db now) ∧
    (activeVehicleStates db now = [] →
      (getFleetStats db now).avgFleetSoc = 0 ∧
      (getFleetStats db now).avgFleetBatteryTemp = 0) ∧
    (activeVehicleStates db now ≠ [] →
      (getFleetStats db now).avgFleetSoc =
        round2 (((activeVehicleStates db now).map (fun p => p.2.soc)).sum /
          (activeVehicleStates db now).length) ∧
      (getFleetStats db now).avgFleetBatteryTemp =
        round2 (((activeVehicleStates db now).map (fun p => p.2.batteryTemp)).sum /
          (activeVehicleStates db now).length)) := by
  have hiff : ∀ p ∈ db.vehicleCurrentState,
      (p ∈ activeVehicleStates db now ↔ now - 300000 ≤ p.2.lastTimestamp) := by
    intro p hp
    simp [activeVehicleStates, List.mem_filter, hp]
  have hiffm : ∀ p ∈ db.meterCurrentState,
      (p ∈ activeMeterStates db now ↔ now - 300000 ≤ p.2.lastTimestamp) := by
    intro p hp
    simp [activeMeterStates, List.mem_filter, hp]
  refine ⟨rfl, rfl, rfl, rfl, hiff, ?_, ?_, ?_, ?_⟩
  · intro p hp h10 hmem
    have := (hiff p hp).mp hmem
    rw [h10] at this
    linarith
  · intro p hp h10 hmem
    have := (hiffm p hp).mp hmem
    rw [h10] at this
    linarith
  · intro h
    constructor <;> (simp [getFleetStats, h]; norm_num [round2])
  · intro h
    have hl : 0 < (activeVehicleStates db now).length := List.length_pos.mpr h
    exact ⟨by simp [getFleetStats, hl], by simp [getFleetStats, hl]⟩

/-- Fleet-stats witness database: one vehicle state updated at the reference
instant and one whose state is exactly ten minutes old. -/
def exDb8 : Db :=
  ⟨[], [], [], [], [],
    [("VEH-A", ⟨80, 10, 25, 1000⟩), ("VEH-B", ⟨60, 5, 35, -599000⟩)]⟩

theorem c8_fleet_stats_active_classification_witness :
    (getFleetStats exDb8 1000).activeVehicles = (activeVehicleStates exDb8 1000).length ∧
    ("VEH-B", (⟨60, 5, 35, -599000⟩ : VehicleCurrentState)) ∉ activeVehicleStates exDb8 1000 ∧
    (getFleetStats exDb8 1000).avgFleetSoc =
      round2 (((activeVehicleStates exDb8 1000).map (fun p => p.2.soc)).sum /
        (activeVehicleStates exDb8 1000).length) := by
  have h := c8_fleet_stats_active_classification exDb8 1000
  refine ⟨h.2.2.1, ?_, ?_⟩
  · exact h.2.2.2.2.2.1 ("VEH-B", ⟨60, 5, 35, -599000⟩)
      (by simp [exDb8]) (by norm_num)
  · exact (h.2.2.2.2.2.2.2.2 (by
      norm_num [activeVehicleStates, exDb8, List.filter])).1
